import Mathlib

/-!
Verification development for the fmmrtns/chip8 CHIP-8 virtual machine
(src/chip8.rs).  The CPU state, the opcode handlers and the step function
`Chip8.run` are shallowly embedded below; machine integers are modelled as
`Nat` with an explicit `% 2^w` wherever the Rust code performs wrapping
arithmetic or a narrowing cast, and the fallible operations (stack pop,
keypad indexing, opcode classification) return `Except`.

The instruction decoder (instruction.rs) and the screen (screen.rs) are not
part of the sources; following the spec, the decoder is passed to `Chip8.run`
as an abstract function from the raw big-endian 16-bit opcode to an optional
decoded instruction, and the screen is reduced to its 64*32 cell buffer.
-/

/-- The enumerated operation kinds handled by the dispatch in `Chip8::run`
(the `Opcodes` enum of instruction.rs; exactly the 34 match arms of the
source dispatch are represented, every other raw opcode decodes to `none`). -/
inductive Opcodes where
  | CLS | RET | JMP | JMP_VA | CALL
  | SE_VB | SE_VV | SNE_VB | SNE_VV
  | OR | ADD_VB | ADD_VV | ADD_IV
  | SUB | SUBN | XOR | AND
  | LD_VB | LD_BV | LD_VV | LD_VI | LD_VK | LD_IV
  | LD_FV | LD_IA | LD_VDT | LD_DTV | LD_STV
  | SHL | SKP | SKNP | RND | SHR | DRW
  deriving DecidableEq

/-- Modelled from the spec: the decoded instruction produced by
instruction.rs (not under src/).  Per spec section 4.1 the operand fields are
pure nibble projections of the 16-bit opcode: x and y are register indices
(4 bits), n the low nibble, kk the low byte, nnn the low 12 bits. -/
structure Instruction where
  op : Opcodes
  x : Nat
  y : Nat
  n : Nat
  kk : Nat
  nnn : Nat
  deriving DecidableEq

/-- The fatal conditions of the core: the two `panic` sites of `Chip8::run`
and `Chip8::ret`, and the out-of-bounds keypad accesses of `skp`, `sknp`
and `press`. -/
inductive Chip8Error where
  | unrecognizedOpcode (raw : Nat)
  | stackUnderflow
  | keyIndexOutOfRange (idx : Nat)
  deriving DecidableEq

/-- The VM state of `struct Chip8`.  The `inst` and `jmp` fields of the Rust
struct are re-initialised at the start of every `run` call and consumed
before it returns, so they are modelled as step-locals; `screen` is reduced
to its cell buffer. -/
structure Chip8 where
  regs : Nat → Nat
  i : Nat
  dt : Nat
  st : Nat
  pc : Nat
  keys : List Nat
  mem : Nat → Nat
  stack : List Nat
  buffer : Nat → Nat

/-- `Chip8::new` (the SDL handle only feeds the excluded renderer). -/
def Chip8.new : Chip8 :=
  { regs := fun _ => 0
  , i := 0
  , dt := 0
  , st := 0
  , pc := 0x200
  , keys := List.replicate 16 0
  , mem := fun _ => 0
  , stack := []
  , buffer := fun _ => 0 }

/-- `Chip8::cls`; `Screen::clear` is modelled from the spec (section 4.3):
it zeroes every framebuffer cell. -/
def Chip8.cls (s : Chip8) : Chip8 :=
  { s with buffer := fun _ => 0 }

/-- `Chip8::ret`: pop the stack into PC (`set_pc(addr as u16)` narrows the
popped usize to 16 bits); popping an empty stack is fatal. -/
def Chip8.ret (s : Chip8) : Except Chip8Error Chip8 :=
  match s.stack with
  | [] => .error .stackUnderflow
  | a :: rest => .ok { s with stack := rest, pc := a % 65536 }

/-- `Chip8::jmp`: PC := nnn (the handler also raises the jmp flag, attached
in `Chip8.execute`). -/
def Chip8.jmp (inst : Instruction) (s : Chip8) : Chip8 :=
  { s with pc := inst.nnn }

/-- `Chip8::jmp_va`: PC := nnn + V0 (16-bit addition). -/
def Chip8.jmp_va (inst : Instruction) (s : Chip8) : Chip8 :=
  { s with pc := (inst.nnn + s.regs 0) % 65536 }

/-- `Chip8::call`: push the current PC (the address of the CALL itself),
then PC := nnn. -/
def Chip8.call (inst : Instruction) (s : Chip8) : Chip8 :=
  { s with stack := s.pc :: s.stack, pc := inst.nnn }

/-- `Chip8::se_vb`: skip (extra PC += 2) when Vx = kk. -/
def Chip8.se_vb (inst : Instruction) (s : Chip8) : Chip8 :=
  if s.regs inst.x = inst.kk then { s with pc := s.pc + 2 } else s

/-- `Chip8::se_vv`: skip when Vx = Vy. -/
def Chip8.se_vv (inst : Instruction) (s : Chip8) : Chip8 :=
  if s.regs inst.x = s.regs inst.y then { s with pc := s.pc + 2 } else s

/-- `Chip8::sne_vb`: skip when Vx and kk differ. -/
def Chip8.sne_vb (inst : Instruction) (s : Chip8) : Chip8 :=
  if s.regs inst.x ≠ inst.kk then { s with pc := s.pc + 2 } else s

/-- `Chip8::sne_vv`: skip when Vx and Vy differ. -/
def Chip8.sne_vv (inst : Instruction) (s : Chip8) : Chip8 :=
  if s.regs inst.x ≠ s.regs inst.y then { s with pc := s.pc + 2 } else s

/-- `Chip8::or`: Vx |= Vy. -/
def Chip8.or (inst : Instruction) (s : Chip8) : Chip8 :=
  { s with regs := Function.update s.regs inst.x (s.regs inst.x ||| s.regs inst.y) }

/-- `Chip8::and`: Vx &= Vy. -/
def Chip8.and (inst : Instruction) (s : Chip8) : Chip8 :=
  { s with regs := Function.update s.regs inst.x (s.regs inst.x &&& s.regs inst.y) }

/-- `Chip8::xor`: Vx ^= Vy. -/
def Chip8.xor (inst : Instruction) (s : Chip8) : Chip8 :=
  { s with regs := Function.update s.regs inst.x (s.regs inst.x ^^^ s.regs inst.y) }

/-- `Chip8::add_vb`: Vx := Vx wrapping-plus kk. -/
def Chip8.add_vb (inst : Instruction) (s : Chip8) : Chip8 :=
  { s with regs := Function.update s.regs inst.x ((s.regs inst.x + inst.kk) % 256) }

/-- `Chip8::add_vv`: widened sum, VF := carry, Vx := low byte
(VF is written before Vx, as in the source). -/
def Chip8.add_vv (inst : Instruction) (s : Chip8) : Chip8 :=
  let r1 := Function.update s.regs 15 (if 255 < s.regs inst.x + s.regs inst.y then 1 else 0)
  { s with regs := Function.update r1 inst.x ((s.regs inst.x + s.regs inst.y) % 256) }

/-- `Chip8::add_iv`: VF flags the 255 boundary of I + Vx, then I += Vx
(16-bit addition). -/
def Chip8.add_iv (inst : Instruction) (s : Chip8) : Chip8 :=
  { s with
      regs := Function.update s.regs 15 (if 255 < (s.i + s.regs inst.x) % 65536 then 1 else 0)
    , i := (s.i + s.regs inst.x) % 65536 }

/-- `Chip8::sub`: VF := 1 when Vx > Vy, Vx := Vx wrapping-minus Vy
(both operands read before the VF write). -/
def Chip8.sub (inst : Instruction) (s : Chip8) : Chip8 :=
  let r1 := Function.update s.regs 15 (if s.regs inst.y < s.regs inst.x then 1 else 0)
  { s with regs := Function.update r1 inst.x ((s.regs inst.x + 256 - s.regs inst.y) % 256) }

/-- `Chip8::subn`: VF := 1 when Vy > Vx, Vx := Vy wrapping-minus Vx. -/
def Chip8.subn (inst : Instruction) (s : Chip8) : Chip8 :=
  let r1 := Function.update s.regs 15 (if s.regs inst.x < s.regs inst.y then 1 else 0)
  { s with regs := Function.update r1 inst.x ((s.regs inst.y + 256 - s.regs inst.x) % 256) }

/-- `Chip8::shr`: VF := low bit of the pre-read value, Vx := that value
shifted right by one. -/
def Chip8.shr (inst : Instruction) (s : Chip8) : Chip8 :=
  let r1 := Function.update s.regs 15 (s.regs inst.x &&& 1)
  { s with regs := Function.update r1 inst.x (s.regs inst.x >>> 1) }

/-- `Chip8::shl`: the flag is computed from the pre-read value x as
`(x & 0xF0) >> 7 == 1` and written to VF first; `regs[x] *= 2` then
re-reads the register and doubles it with 8-bit wraparound, so when
`inst.x = 0xF` it doubles the freshly written flag. -/
def Chip8.shl (inst : Instruction) (s : Chip8) : Chip8 :=
  let r1 := Function.update s.regs 15
    (if (s.regs inst.x &&& 0xF0) >>> 7 = 1 then 1 else 0)
  { s with regs := Function.update r1 inst.x (r1 inst.x * 2 % 256) }

/-- `Chip8::ld_vv`: Vx := Vy. -/
def Chip8.ld_vv (inst : Instruction) (s : Chip8) : Chip8 :=
  { s with regs := Function.update s.regs inst.x (s.regs inst.y) }

/-- `Chip8::ld_vb`: Vx := kk. -/
def Chip8.ld_vb (inst : Instruction) (s : Chip8) : Chip8 :=
  { s with regs := Function.update s.regs inst.x inst.kk }

/-- `Chip8::ld_bv`: the BCD store, with the exact digit formulas of the
source: mem[I] = x/100, mem[I+1] = (x/100)%10, mem[I+2] = (x%100)%10. -/
def Chip8.ld_bv (inst : Instruction) (s : Chip8) : Chip8 :=
  let m1 := Function.update s.mem s.i (s.regs inst.x / 100)
  let m2 := Function.update m1 (s.i + 1) (s.regs inst.x / 100 % 10)
  { s with mem := Function.update m2 (s.i + 2) (s.regs inst.x % 100 % 10) }

/-- `Chip8::ld_fv`: `self.i = (x * 5) as u16` where x is the u8 register
value, so the multiplication is performed in 8-bit arithmetic (wrapping
modulo 256) before the widening cast. -/
def Chip8.ld_fv (inst : Instruction) (s : Chip8) : Chip8 :=
  { s with i := s.regs inst.x * 5 % 256 }

/-- `Chip8::ld_vi`: for i in 0..x, regs[i] := mem[I + i]. -/
def Chip8.ld_vi (inst : Instruction) (s : Chip8) : Chip8 :=
  let r1 := (List.range inst.x).foldl (fun r k => Function.update r k (s.mem (s.i + k))) s.regs
  { s with regs := r1 }

/-- `Chip8::ld_iv`: for i in 0..x, mem[I + i] := regs[i]. -/
def Chip8.ld_iv (inst : Instruction) (s : Chip8) : Chip8 :=
  let m1 := (List.range inst.x).foldl (fun m k => Function.update m (s.i + k) (s.regs k)) s.mem
  { s with mem := m1 }

/-- `Chip8::ld_ia`: I := nnn. -/
def Chip8.ld_ia (inst : Instruction) (s : Chip8) : Chip8 :=
  { s with i := inst.nnn }

/-- `Chip8::ld_vk`: scan all keypad indices in order, writing every pressed
index into Vx (so the highest pressed index wins); when no key is pressed,
rewind PC by 2. -/
def Chip8.ld_vk (inst : Instruction) (s : Chip8) : Chip8 :=
  let scan :=
    (List.range s.keys.length).foldl
      (fun (acc : (Nat → Nat) × Bool) i =>
        if s.keys.getD i 0 = 1 then (Function.update acc.1 inst.x i, true) else acc)
      (s.regs, false)
  if scan.2 = false then { s with regs := scan.1, pc := s.pc - 2 }
  else { s with regs := scan.1 }

/-- `Chip8::ld_vdt`: Vx := DT. -/
def Chip8.ld_vdt (inst : Instruction) (s : Chip8) : Chip8 :=
  { s with regs := Function.update s.regs inst.x s.dt }

/-- `Chip8::ld_dtv`: DT := Vx. -/
def Chip8.ld_dtv (inst : Instruction) (s : Chip8) : Chip8 :=
  { s with dt := s.regs inst.x }

/-- `Chip8::ld_stv`: ST := Vx. -/
def Chip8.ld_stv (inst : Instruction) (s : Chip8) : Chip8 :=
  { s with st := s.regs inst.x }

/-- `Chip8::rnd`: Vx := random byte AND kk; the generated byte is supplied
as the `rnd` oracle argument. -/
def Chip8.rnd (inst : Instruction) (rnd : Nat) (s : Chip8) : Chip8 :=
  { s with regs := Function.update s.regs inst.x (rnd &&& inst.kk) }

/-- The clamped framebuffer index of `Chip8::drw`: the raw cell index
x+j+(y+i)*64 is narrowed to u16 and then clamped to the last cell when it
reaches past the grid. -/
def drwOffset (x y i j : Nat) : Nat :=
  if 64 * 32 ≤ (x + j + (y + i) * 64) % 65536 then 64 * 32 - 1
  else (x + j + (y + i) * 64) % 65536

/-- One sprite bit of `Chip8::drw` (loop body over j): when bit 7-j of the
row byte is set, record a collision in the VF accumulator if the target
cell is already lit, then XOR-flip the target cell. -/
def drwPx (px x y i : Nat) (acc : (Nat → Nat) × Nat) (j : Nat) : (Nat → Nat) × Nat :=
  if px &&& (0x80 >>> j) ≠ 0 then
    (Function.update acc.1 (drwOffset x y i j) (acc.1 (drwOffset x y i j) ^^^ 1),
     if acc.1 (drwOffset x y i j) = 1 then 1 else acc.2)
  else acc

/-- One sprite row of `Chip8::drw` (loop body over i): the row byte is read
from mem[(I + i) as u16]. -/
def drwRow (mem : Nat → Nat) (iReg x y : Nat) (acc : (Nat → Nat) × Nat) (i : Nat) :
    (Nat → Nat) × Nat :=
  (List.range 8).foldl (drwPx (mem ((iReg + i) % 65536)) x y i) acc

/-- The nested sprite loops of `Chip8::drw`, threading the buffer and the
VF accumulator. -/
def drwLoop (mem : Nat → Nat) (iReg x y n : Nat) (start : (Nat → Nat) × Nat) :
    (Nat → Nat) × Nat :=
  (List.range n).foldl (drwRow mem iReg x y) start

/-- `Chip8::drw`: x, y are read from the registers before VF is reset to 0;
the loops then update the buffer and VF (the renderer calls of the source
affect only the excluded display backend). -/
def Chip8.drw (inst : Instruction) (s : Chip8) : Chip8 :=
  let res := drwLoop s.mem s.i (s.regs inst.x) (s.regs inst.y) inst.n (s.buffer, 0)
  { s with buffer := res.1, regs := Function.update s.regs 15 res.2 }

/-- `Chip8::skp`: skip when key Vx is pressed; the keypad is indexed with
the unchecked register value, fatal out of bounds. -/
def Chip8.skp (inst : Instruction) (s : Chip8) : Except Chip8Error Chip8 :=
  match s.keys.get? (s.regs inst.x) with
  | none => .error (.keyIndexOutOfRange (s.regs inst.x))
  | some k => .ok (if k = 1 then { s with pc := s.pc + 2 } else s)

/-- `Chip8::sknp`: skip when key Vx is not pressed; same unchecked
keypad indexing as `skp`. -/
def Chip8.sknp (inst : Instruction) (s : Chip8) : Except Chip8Error Chip8 :=
  match s.keys.get? (s.regs inst.x) with
  | none => .error (.keyIndexOutOfRange (s.regs inst.x))
  | some k => .ok (if k = 0 then { s with pc := s.pc + 2 } else s)

/-- `Chip8::reset_keys`: clear all 16 keys. -/
def Chip8.reset_keys (s : Chip8) : Chip8 :=
  { s with keys := List.replicate 16 0 }

/-- `Chip8::press`: mark one key pressed; the keypad is indexed with the
unchecked key argument, fatal (`none`) out of bounds. -/
def Chip8.press (key : Nat) (s : Chip8) : Option Chip8 :=
  if key < s.keys.length then some { s with keys := s.keys.set key 1 } else none

/-- The dispatch of `Chip8::run`: runs the handler of the decoded operation
and reports whether the handler raised the jmp flag (only `jmp`, `jmp_va`
and `call` do). -/
def Chip8.execute (inst : Instruction) (rnd : Nat) (s : Chip8) :
    Except Chip8Error (Chip8 × Bool) :=
  match inst.op with
  | .CLS => .ok (s.cls, false)
  | .RET =>
      match s.ret with
      | .ok t => .ok (t, false)
      | .error e => .error e
  | .JMP => .ok (s.jmp inst, true)
  | .JMP_VA => .ok (s.jmp_va inst, true)
  | .CALL => .ok (s.call inst, true)
  | .SE_VB => .ok (s.se_vb inst, false)
  | .SE_VV => .ok (s.se_vv inst, false)
  | .SNE_VB => .ok (s.sne_vb inst, false)
  | .SNE_VV => .ok (s.sne_vv inst, false)
  | .OR => .ok (s.or inst, false)
  | .ADD_VB => .ok (s.add_vb inst, false)
  | .ADD_VV => .ok (s.add_vv inst, false)
  | .ADD_IV => .ok (s.add_iv inst, false)
  | .SUB => .ok (s.sub inst, false)
  | .SUBN => .ok (s.subn inst, false)
  | .XOR => .ok (s.xor inst, false)
  | .AND => .ok (s.and inst, false)
  | .LD_VB => .ok (s.ld_vb inst, false)
  | .LD_BV => .ok (s.ld_bv inst, false)
  | .LD_VV => .ok (s.ld_vv inst, false)
  | .LD_VI => .ok (s.ld_vi inst, false)
  | .LD_VK => .ok (s.ld_vk inst, false)
  | .LD_IV => .ok (s.ld_iv inst, false)
  | .LD_FV => .ok (s.ld_fv inst, false)
  | .LD_IA => .ok (s.ld_ia inst, false)
  | .LD_VDT => .ok (s.ld_vdt inst, false)
  | .LD_DTV => .ok (s.ld_dtv inst, false)
  | .LD_STV => .ok (s.ld_stv inst, false)
  | .SHL => .ok (s.shl inst, false)
  | .SKP =>
      match s.skp inst with
      | .ok t => .ok (t, false)
      | .error e => .error e
  | .SKNP =>
      match s.sknp inst with
      | .ok t => .ok (t, false)
      | .error e => .error e
  | .RND => .ok (s.rnd inst rnd, false)
  | .SHR => .ok (s.shr inst, false)
  | .DRW => .ok (s.drw inst, false)

/-- The raw big-endian 16-bit opcode fetched at PC (the tuple
`(mem[pc], mem[pc+1])` of `Chip8::run`, combined per spec section 4.1). -/
def Chip8.fetch (s : Chip8) : Nat :=
  s.mem s.pc * 256 + s.mem (s.pc + 1)

/-- The default PC advance of `Chip8::run`: `if !self.jmp { self.inc_pc() }`. -/
def Chip8.advance (jmpFlag : Bool) (s : Chip8) : Chip8 :=
  if jmpFlag then s else { s with pc := s.pc + 2 }

/-- The timer decay at the end of `Chip8::run`: each of DT and ST is
decremented by 1 when positive and left at 0 otherwise. -/
def Chip8.tick (s : Chip8) : Chip8 :=
  { s with
      dt := if 0 < s.dt then s.dt - 1 else s.dt
    , st := if 0 < s.st then s.st - 1 else s.st }

/-- The tail of `Chip8::run` past decoding: dispatch, then the default PC
advance unless the jmp flag was raised, then timer decay. -/
def Chip8.runInst (inst : Instruction) (rnd : Nat) (s : Chip8) :
    Except Chip8Error Chip8 :=
  match Chip8.execute inst rnd s with
  | .error e => .error e
  | .ok (s1, jmpFlag) => .ok (Chip8.tick (Chip8.advance jmpFlag s1))

/-- `Chip8::run`, one step: fetch, decode, dispatch, advance PC by 2 unless
the handler raised the jmp flag, then decay both timers.  The decoder of
instruction.rs is not under src/ and is passed as the abstract `dec`
argument; `dec raw = none` models the fatal unrecognized-opcode paths
(`Opcodes::from_u16(..).unwrap()` and the catchall panic arm), whose report
carries the opcode value and nothing else. -/
def Chip8.run (dec : Nat → Option Instruction) (rnd : Nat) (s : Chip8) :
    Except Chip8Error Chip8 :=
  match dec s.fetch with
  | none => .error (.unrecognizedOpcode s.fetch)
  | some inst => Chip8.runInst inst rnd s

/-- The host step loop of spec section 5: `run` invoked k times in
sequence, stopping at the first fatal error. -/
def Chip8.runIter (dec : Nat → Option Instruction) (rnd : Nat) :
    Nat → Chip8 → Except Chip8Error Chip8
  | 0, s => .ok s
  | k + 1, s =>
      match Chip8.run dec rnd s with
      | .ok s1 => Chip8.runIter dec rnd k s1
      | .error e => .error e

/-- Extract the success state of a step result, with a fallback. -/
def Chip8.okD (e : Except Chip8Error Chip8) (d : Chip8) : Chip8 :=
  match e with
  | .ok s => s
  | .error _ => d

/-! Concrete fixtures used to instantiate the claim theorems. -/

def wInstDRW : Instruction := ⟨.DRW, 0, 1, 1, 0, 0⟩

def wInstSHL15 : Instruction := ⟨.SHL, 15, 0, 0, 0, 0⟩

def wInstSHL0 : Instruction := ⟨.SHL, 0, 0, 0, 0, 0⟩

def wInstLDVI : Instruction := ⟨.LD_VI, 2, 0, 0, 0, 0⟩

def wInstLDBV : Instruction := ⟨.LD_BV, 3, 0, 0, 0, 0⟩

def wInstLDFV : Instruction := ⟨.LD_FV, 0, 0, 0, 0, 0⟩

def wInstSKP : Instruction := ⟨.SKP, 0, 0, 0, 0, 0⟩

def wInstCALL : Instruction := ⟨.CALL, 0, 0, 0, 0, 0x400⟩

def wInstRET : Instruction := ⟨.RET, 0, 0, 0, 0, 0⟩

def wInstLDVB : Instruction := ⟨.LD_VB, 0, 0, 0, 7, 0⟩

def wInstLDVK : Instruction := ⟨.LD_VK, 2, 0, 0, 0, 0⟩

/-- State with V15 = 200, for exercising SHL with x = 0xF. -/
def wShl15State : Chip8 := { Chip8.new with regs := Function.update Chip8.new.regs 15 200 }

/-- State with V0 = 200, for exercising SHL with x = 0. -/
def wShl0State : Chip8 := { Chip8.new with regs := Function.update Chip8.new.regs 0 200 }

/-- State with a one-row all-ones sprite at address 0 and V1 = 3. -/
def wSprState : Chip8 :=
  { Chip8.new with
      mem := fun a => if a = 0 then 255 else 0
    , regs := Function.update Chip8.new.regs 1 3 }

/-- State with V3 = 137 and I = 100, for the BCD store. -/
def wBcdState : Chip8 :=
  { Chip8.new with regs := Function.update Chip8.new.regs 3 137, i := 100 }

/-- State with V0 = 60, exercising the 8-bit wrap of the font-address multiply. -/
def wFvState : Chip8 := { Chip8.new with regs := Function.update Chip8.new.regs 0 60 }

/-- State with V0 = 10, a font-address multiply that stays below 256. -/
def wFvSmallState : Chip8 := { Chip8.new with regs := Function.update Chip8.new.regs 0 10 }

/-- State with mem[a] = a % 256 and I = 50, for the register-block transfers. -/
def wLdState : Chip8 := { Chip8.new with mem := fun a => a % 256, i := 50 }

def wInstLDDTV : Instruction := ⟨.LD_DTV, 3, 0, 0, 0, 0⟩

/-- A decoder that recognizes nothing. -/
def wDecNone : Nat → Option Instruction := fun _ => none

/-- A decoder whose program is all CALL 0x400. -/
def wDecCALL : Nat → Option Instruction := fun _ => some wInstCALL

/-- A decoder whose program is all RET. -/
def wDecRET : Nat → Option Instruction := fun _ => some wInstRET

/-- A decoder whose program is all LD V0, 7. -/
def wDecLDVB : Nat → Option Instruction := fun _ => some wInstLDVB

/-- A decoder whose program is all LD V2, K. -/
def wDecVK : Nat → Option Instruction := fun _ => some wInstLDVK

/-- A decoder whose program is all LD DT, V3. -/
def wDecLDDTV : Nat → Option Instruction := fun _ => some wInstLDDTV

/-- State whose memory reads 0x51 everywhere, so every fetch yields the
unrecognized raw opcode 0x5151. -/
def wC9s1 : Chip8 := { Chip8.new with mem := fun _ => 0x51 }

/-- Same memory as `wC9s1` but a different PC. -/
def wC9s2 : Chip8 := { Chip8.new with mem := fun _ => 0x51, pc := 0x300 }

/-- State about to execute RET with 0x200 on the stack top. -/
def wRetState : Chip8 := { Chip8.new with pc := 0x400, stack := [0x200] }

/-- Keypad with keys 2 and 5 pressed. -/
def wVkState : Chip8 :=
  { Chip8.new with keys := [0, 0, 1, 0, 0, 1, 0, 0, 0, 0, 0, 0, 0, 0, 0, 0] }

/-- Three steps of the blocking LD Vx, K on the fresh VM (no key pressed). -/
def wVkIter3 : Chip8 := Chip8.okD (Chip8.runIter wDecVK 0 3 Chip8.new) Chip8.new

/-- State with DT = 5, for the timer-decay iteration. -/
def wDtState : Chip8 := { Chip8.new with dt := 5 }

/-- Five steps of a non-DT-touching opcode from DT = 5. -/
def wDt5 : Chip8 := Chip8.okD (Chip8.runIter wDecLDVB 0 5 wDtState) Chip8.new

/-- Six steps of a non-DT-touching opcode from DT = 5. -/
def wDt6 : Chip8 := Chip8.okD (Chip8.runIter wDecLDVB 0 6 wDtState) Chip8.new

/-- State with V3 = 5, about to execute LD DT, V3. -/
def wDtvState : Chip8 := { Chip8.new with regs := Function.update Chip8.new.regs 3 5 }

/-- The step that sets DT := V3 = 5 (DT decays to 4 the same step). -/
def wDtvRes : Chip8 := Chip8.okD (Chip8.run wDecLDDTV 0 wDtvState) Chip8.new

/-- One CALL step from the fresh VM. -/
def wCallRes : Chip8 := Chip8.okD (Chip8.run wDecCALL 0 Chip8.new) Chip8.new

/-- Memory holding 1 below 0x400 and 2 from 0x400 on, so the raw opcode
fetched at 0x200 is 257 and the one fetched at 0x400 is 514. -/
def wRtState : Chip8 := { Chip8.new with mem := fun a => if a < 0x400 then 1 else 2 }

/-- A decoder that classifies raw 257 as the CALL 0x400 and everything
else as RET. -/
def wDecRT : Nat → Option Instruction :=
  fun raw => if raw = 257 then some wInstCALL else some wInstRET

/-- The CALL step of the round-trip program. -/
def wRtCall : Chip8 := Chip8.okD (Chip8.run wDecRT 0 wRtState) Chip8.new

/-- The RET step of the round-trip program. -/
def wRtRet : Chip8 := Chip8.okD (Chip8.run wDecRT 0 wRtCall) Chip8.new

section Helpers

/-- Evaluating a left fold of pointwise updates at consecutive indices. -/
theorem foldl_update_eval {α : Type} (g : Nat → α) (x j : Nat) (r : Nat → α) :
    ((List.range x).foldl (fun r k => Function.update r k (g k)) r) j
      = if j < x then g j else r j := by
  induction x with
  | zero => simp
  | succ m ih =>
      rw [List.range_succ, List.foldl_append, List.foldl_cons, List.foldl_nil,
        Function.update_apply, ih]
      by_cases h1 : j = m
      · subst h1; simp
      · by_cases h2 : j < m
        · have h3 : j < m + 1 := by omega
          simp [h1, h2, h3]
        · have h3 : ¬ j < m + 1 := by omega
          simp [h1, h2, h3]

/-- Evaluating a left fold of updates at consecutive shifted indices. -/
theorem foldl_update_shift_eval {α : Type} (g : Nat → α) (i0 x a : Nat) (m : Nat → α) :
    ((List.range x).foldl (fun m k => Function.update m (i0 + k) (g k)) m) a
      = if i0 ≤ a ∧ a < i0 + x then g (a - i0) else m a := by
  induction x with
  | zero =>
      have h : ¬ (i0 ≤ a ∧ a < i0 + 0) := by omega
      simp only [List.range_zero, List.foldl_nil]
      rw [if_neg h]
  | succ n ih =>
      rw [List.range_succ, List.foldl_append, List.foldl_cons, List.foldl_nil,
        Function.update_apply, ih]
      by_cases h1 : a = i0 + n
      · subst h1
        have h2 : i0 + n - i0 = n := by omega
        have h3 : i0 ≤ i0 + n ∧ i0 + n < i0 + (n + 1) := by omega
        simp [h2, h3]
      · by_cases h2 : i0 ≤ a ∧ a < i0 + n
        · have h3 : i0 ≤ a ∧ a < i0 + (n + 1) := by omega
          simp [h1, h2, h3]
        · have h3 : ¬ (i0 ≤ a ∧ a < i0 + (n + 1)) := by omega
          simp [h1, h2, h3]

end Helpers

/-- Modelled from the spec: the target cell rule of the draw claim - the
raw index x+j+(y+i)*64 is clamped to the last valid index 64*32-1 when it
would exceed it, never wrapped. -/
def drwTarget (x y i j : Nat) : Nat :=
  if 64 * 32 - 1 < x + j + (y + i) * 64 then 64 * 32 - 1 else x + j + (y + i) * 64

/-- Modelled from the spec: processing of one sprite bit per the claim
wording - when bit 7-j (most significant first) of the row byte is set, the
collision flag becomes 1 for the remainder of the call if the target cell
already holds 1, and the target cell is flipped by XOR with 1. -/
def drwPxSpec (px x y i : Nat) (acc : (Nat → Nat) × Nat) (j : Nat) : (Nat → Nat) × Nat :=
  if Nat.testBit px (7 - j) then
    (Function.update acc.1 (drwTarget x y i j) (acc.1 (drwTarget x y i j) ^^^ 1),
     if acc.1 (drwTarget x y i j) = 1 then 1 else acc.2)
  else acc

/-- Modelled from the spec: the full draw postcondition of the claim - the
collision flag starts at 0 before any pixel is processed, and the n sprite
rows are read from memory starting at I. -/
def drwSpec (mem buf : Nat → Nat) (iReg x y n : Nat) : (Nat → Nat) × Nat :=
  (List.range n).foldl
    (fun acc i => (List.range 8).foldl (drwPxSpec (mem (iReg + i)) x y i) acc)
    (buf, 0)

/-- A masked conjunction with a power of two is nonzero exactly when the
corresponding bit is set. -/
theorem and_pow2_ne (px k : Nat) : (px &&& 2 ^ k ≠ 0) ↔ px.testBit k = true := by
  rw [Nat.and_two_pow]
  cases h : px.testBit k <;> simp [h]

/-- The source bit test of `drw` coincides with testing bit 7-j. -/
theorem drwBit_eq (px j : Nat) (hj : j < 8) :
    (px &&& (0x80 >>> j) ≠ 0) ↔ px.testBit (7 - j) = true := by
  interval_cases j
  · exact and_pow2_ne px 7
  · exact and_pow2_ne px 6
  · exact and_pow2_ne px 5
  · exact and_pow2_ne px 4
  · exact and_pow2_ne px 3
  · exact and_pow2_ne px 2
  · exact and_pow2_ne px 1
  · exact and_pow2_ne px 0

/-- Under the register and nibble bounds, the u16-narrowed clamped offset of
the source equals the clamp-not-wrap target of the spec. -/
theorem drwOffset_eq_target (x y i j : Nat) (hx : x ≤ 255) (hy : y ≤ 255)
    (hi : i ≤ 14) (hj : j ≤ 7) : drwOffset x y i j = drwTarget x y i j := by
  unfold drwOffset drwTarget
  have hmul : (y + i) * 64 ≤ 269 * 64 := by
    apply Nat.mul_le_mul_right
    omega
  have hlt : x + j + (y + i) * 64 < 65536 := by omega
  rw [Nat.mod_eq_of_lt hlt]
  have hcond : (64 * 32 ≤ x + j + (y + i) * 64) ↔ (64 * 32 - 1 < x + j + (y + i) * 64) := by
    omega
  split_ifs with h1 h2 h3
  · rfl
  · exact absurd (hcond.mp h1) h2
  · exact absurd (hcond.mpr h3) h1
  · rfl

/-- Pointwise agreement of the per-bit step of the source with the per-bit
step of the spec wording. -/
theorem drwPx_eq (px x y i j : Nat) (acc : (Nat → Nat) × Nat) (hx : x ≤ 255)
    (hy : y ≤ 255) (hi : i ≤ 14) (hj : j < 8) :
    drwPx px x y i acc j = drwPxSpec px x y i acc j := by
  unfold drwPx drwPxSpec
  rw [drwOffset_eq_target x y i j hx hy hi (by omega)]
  have hb := drwBit_eq px j hj
  by_cases h : px &&& (0x80 >>> j) ≠ 0
  · rw [if_pos h, if_pos (hb.mp h)]
  · rw [if_neg h, if_neg (fun hc => h (hb.mpr hc))]

/-- The sprite loops of the source refine the spec-worded draw. -/
theorem drwLoop_eq_spec (mem buf : Nat → Nat) (iReg x y n : Nat)
    (hx : x ≤ 255) (hy : y ≤ 255) (hn : n ≤ 15) (hiR : iReg + n ≤ 65536) :
    drwLoop mem iReg x y n (buf, 0) = drwSpec mem buf iReg x y n := by
  unfold drwLoop drwSpec
  apply List.foldl_ext
  intro acc i hi
  have hi' : i < n := List.mem_range.mp hi
  unfold drwRow
  have hmem : (iReg + i) % 65536 = iReg + i := Nat.mod_eq_of_lt (by omega)
  rw [hmem]
  apply List.foldl_ext
  intro acc2 j hj
  exact drwPx_eq _ _ _ _ _ _ hx hy (by omega) (List.mem_range.mp hj)

/-- Claim C2: draw-sprite postcondition.  For every draw of n sprite rows
read from memory starting at I, VF starts at 0 before any pixel is
processed; each set sprite bit targets cell x+j+(y+i)*64 clamped (never
wrapped) to 64*32-1; a target cell already holding 1 makes VF 1 for the
remainder of the call; and the target cell is flipped by XOR with 1 - the
source draw refines the spec-worded `drwSpec` on both the buffer and VF. -/
theorem chip8_C2 (inst : Instruction) (s : Chip8) (hx : s.regs inst.x ≤ 255)
    (hy : s.regs inst.y ≤ 255) (hn : inst.n ≤ 15) (hi : s.i + inst.n ≤ 65536) :
    (Chip8.drw inst s).buffer
        = (drwSpec s.mem s.buffer s.i (s.regs inst.x) (s.regs inst.y) inst.n).1 ∧
    (Chip8.drw inst s).regs 15
        = (drwSpec s.mem s.buffer s.i (s.regs inst.x) (s.regs inst.y) inst.n).2 := by
  simp only [Chip8.drw]
  rw [drwLoop_eq_spec _ _ _ _ _ _ hx hy hn hi]
  exact ⟨rfl, Function.update_same _ _ _⟩

/-- Witness for C2 at a concrete one-row draw. -/
theorem chip8_C2_witness :
    (Chip8.drw wInstDRW wSprState).buffer
        = (drwSpec wSprState.mem wSprState.buffer wSprState.i
            (wSprState.regs wInstDRW.x) (wSprState.regs wInstDRW.y) wInstDRW.n).1 ∧
    (Chip8.drw wInstDRW wSprState).regs 15
        = (drwSpec wSprState.mem wSprState.buffer wSprState.i
            (wSprState.regs wInstDRW.x) (wSprState.regs wInstDRW.y) wInstDRW.n).2 :=
  chip8_C2 wInstDRW wSprState (by decide) (by decide) (by decide) (by decide)

/-- Counterexample to C3 as stated: with inst.x = 0xF and V15 = 200 the
pre-shift formula (v & 0xF0) >> 7 = 1 holds, yet after SHL the register VF
holds 2 - neither the claimed flag value 1 nor the claimed doubled value
2*200 % 256 = 144, because the flag written to VF first is itself re-read
and doubled by `regs[x] *= 2`. -/
theorem chip8_C3_counterexample :
    (200 &&& 0xF0) >>> 7 = 1 ∧
    (Chip8.shl wInstSHL15 wShl15State).regs 15 = 2 ∧
    (2 : Nat) ≠ 1 ∧ (2 : Nat) ≠ 2 * 200 % 256 := by
  refine ⟨by decide, ?_, by decide, by decide⟩
  decide

/-- Claim C3 (amended): for every target register other than VF itself,
SHL sets VF to 1 exactly when (v & 0xF0) >> 7 = 1 for the pre-shift value
v of Vx, and sets Vx to 2*v mod 256; when inst.x = 0xF the two writes
alias and the doubled flag lands in VF instead. -/
theorem chip8_C3 (inst : Instruction) (s : Chip8) (hx : inst.x ≠ 15) :
    ((Chip8.shl inst s).regs 15 = 1 ↔ (s.regs inst.x &&& 0xF0) >>> 7 = 1) ∧
    (Chip8.shl inst s).regs inst.x = 2 * s.regs inst.x % 256 := by
  have h15 : (15 : Nat) ≠ inst.x := fun h => hx h.symm
  constructor
  · simp only [Chip8.shl, Function.update_noteq h15, Function.update_same]
    split_ifs with h
    · simp [h]
    · simp [h]
  · simp only [Chip8.shl, Function.update_same, Function.update_noteq hx,
      Nat.mul_comm]

/-- Witness for C3 at a concrete non-aliased register. -/
theorem chip8_C3_witness :
    ((Chip8.shl wInstSHL0 wShl0State).regs 15 = 1
        ↔ (wShl0State.regs wInstSHL0.x &&& 0xF0) >>> 7 = 1) ∧
    (Chip8.shl wInstSHL0 wShl0State).regs wInstSHL0.x
        = 2 * wShl0State.regs wInstSHL0.x % 256 :=
  chip8_C3 wInstSHL0 wShl0State (by decide)

/-- Claim C4: the register-block transfers copy exactly the registers with
index i in 0 until x (x itself excluded, so Vx is not transferred) to and
from mem[I+i]; registers with index at least x and memory cells at offsets
at least x (and any address outside the written window) are unchanged. -/
theorem chip8_C4 :
    (∀ inst s k, k < inst.x → (Chip8.ld_vi inst s).regs k = s.mem (s.i + k)) ∧
    (∀ inst s k, inst.x ≤ k → (Chip8.ld_vi inst s).regs k = s.regs k) ∧
    (∀ inst s, (Chip8.ld_vi inst s).mem = s.mem) ∧
    (∀ inst s k, k < inst.x → (Chip8.ld_iv inst s).mem (s.i + k) = s.regs k) ∧
    (∀ inst s k, inst.x ≤ k → (Chip8.ld_iv inst s).mem (s.i + k) = s.mem (s.i + k)) ∧
    (∀ inst s a, (∀ k, k < inst.x → a ≠ s.i + k) →
      (Chip8.ld_iv inst s).mem a = s.mem a) ∧
    (∀ inst s, (Chip8.ld_iv inst s).regs = s.regs) := by
  refine ⟨?_, ?_, fun _ _ => rfl, ?_, ?_, ?_, fun _ _ => rfl⟩
  · intro inst s k hk
    simp only [Chip8.ld_vi]
    rw [foldl_update_eval]
    exact if_pos hk
  · intro inst s k hk
    simp only [Chip8.ld_vi]
    rw [foldl_update_eval]
    exact if_neg (by omega)
  · intro inst s k hk
    simp only [Chip8.ld_iv]
    rw [foldl_update_shift_eval]
    rw [if_pos (by omega)]
    congr 1
    omega
  · intro inst s k hk
    simp only [Chip8.ld_iv]
    rw [foldl_update_shift_eval]
    exact if_neg (by omega)
  · intro inst s a ha
    simp only [Chip8.ld_iv]
    rw [foldl_update_shift_eval]
    refine if_neg ?_
    rintro ⟨h1, h2⟩
    exact ha (a - s.i) (by omega) (by omega)

/-- Witness for C4: with x = 2, register 1 receives mem[I+1] and memory
offset 1 receives register 1; register 2 and memory offset 2 are untouched. -/
theorem chip8_C4_witness :
    (Chip8.ld_vi wInstLDVI wLdState).regs 1 = wLdState.mem (wLdState.i + 1) ∧
    (Chip8.ld_vi wInstLDVI wLdState).regs 2 = wLdState.regs 2 ∧
    (Chip8.ld_iv wInstLDVI wLdState).mem (wLdState.i + 1) = wLdState.regs 1 ∧
    (Chip8.ld_iv wInstLDVI wLdState).mem (wLdState.i + 2) = wLdState.mem (wLdState.i + 2) :=
  ⟨chip8_C4.1 wInstLDVI wLdState 1 (by decide),
   chip8_C4.2.1 wInstLDVI wLdState 2 (by decide),
   chip8_C4.2.2.2.1 wInstLDVI wLdState 1 (by decide),
   chip8_C4.2.2.2.2.1 wInstLDVI wLdState 2 (by decide)⟩

/-- Claim C5: the BCD store writes mem[I] = v/100, mem[I+1] = (v/100)%10
and mem[I+2] = (v%100)%10 for v the value of Vx (integer division, the
exact non-canonical formulas of the source), and leaves every other memory
cell and all registers unchanged. -/
theorem chip8_C5 (inst : Instruction) (s : Chip8) :
    (Chip8.ld_bv inst s).mem s.i = s.regs inst.x / 100 ∧
    (Chip8.ld_bv inst s).mem (s.i + 1) = s.regs inst.x / 100 % 10 ∧
    (Chip8.ld_bv inst s).mem (s.i + 2) = s.regs inst.x % 100 % 10 ∧
    (∀ a, a ≠ s.i → a ≠ s.i + 1 → a ≠ s.i + 2 → (Chip8.ld_bv inst s).mem a = s.mem a) ∧
    (Chip8.ld_bv inst s).regs = s.regs := by
  refine ⟨?_, ?_, ?_, ?_, rfl⟩
  · simp only [Chip8.ld_bv]
    rw [Function.update_noteq (by omega), Function.update_noteq (by omega),
      Function.update_same]
  · simp only [Chip8.ld_bv]
    rw [Function.update_noteq (by omega), Function.update_same]
  · simp only [Chip8.ld_bv]
    rw [Function.update_same]
  · intro a h1 h2 h3
    simp only [Chip8.ld_bv]
    rw [Function.update_noteq h3, Function.update_noteq h2, Function.update_noteq h1]

/-- Witness for C5 at v = 137, I = 100 (the stored digits are 1, 1, 7
under the source formulas) and an untouched address. -/
theorem chip8_C5_witness :
    (Chip8.ld_bv wInstLDBV wBcdState).mem wBcdState.i = wBcdState.regs wInstLDBV.x / 100 ∧
    (Chip8.ld_bv wInstLDBV wBcdState).mem 99 = wBcdState.mem 99 :=
  ⟨(chip8_C5 wInstLDBV wBcdState).1,
   (chip8_C5 wInstLDBV wBcdState).2.2.2.1 99 (by decide) (by decide) (by decide)⟩

/-- Counterexample to C8 as stated: with V0 = 60 the load-font-address
operation leaves I = 44, not 60 * 5 = 300, because `(x * 5) as u16`
multiplies in 8-bit arithmetic (wrapping modulo 256) before widening -
so the claim fails without a bound on Vx. -/
theorem chip8_C8_counterexample :
    (Chip8.ld_fv wInstLDFV wFvState).i = 44 ∧ (44 : Nat) ≠ 60 * 5 := by
  refine ⟨?_, by decide⟩
  decide

/-- Claim C8 (amended): load-font-address sets I to (Vx * 5) mod 256 (the
multiply is performed in the 8-bit register width before the widening
cast); it equals Vx * 5 exactly on the glyph-table range Vx <= 51. -/
theorem chip8_C8 (inst : Instruction) (s : Chip8) :
    (Chip8.ld_fv inst s).i % 256 = s.regs inst.x * 5 % 256 ∧
    (Chip8.ld_fv inst s).i < 256 ∧
    (s.regs inst.x ≤ 51 → (Chip8.ld_fv inst s).i = s.regs inst.x * 5) := by
  refine ⟨?_, ?_, ?_⟩
  · simp only [Chip8.ld_fv]
    exact Nat.mod_mod_of_dvd _ dvd_rfl
  · exact Nat.mod_lt _ (by norm_num)
  · intro h
    simp only [Chip8.ld_fv]
    exact Nat.mod_eq_of_lt (by omega)

/-- Witness for C8 with V0 = 10: I = 50 = 10 * 5. -/
theorem chip8_C8_witness :
    (Chip8.ld_fv wInstLDFV wFvSmallState).i
        = wFvSmallState.regs wInstLDFV.x * 5 :=
  (chip8_C8 wInstLDFV wFvSmallState).2.2 (by decide)

/-- Claim C10: the skip-if-key operations index the 16-entry keypad with
the unchecked value of Vx, and `press` with the unchecked key argument;
the access is in bounds (no fatal out-of-range result) exactly under the
precondition Vx < 16 (respectively key < 16). -/
theorem chip8_C10 :
    (∀ inst s, s.keys.length = 16 →
      (Chip8.skp inst s = .error (.keyIndexOutOfRange (s.regs inst.x))
        ↔ 16 ≤ s.regs inst.x)) ∧
    (∀ inst s, s.keys.length = 16 →
      (Chip8.sknp inst s = .error (.keyIndexOutOfRange (s.regs inst.x))
        ↔ 16 ≤ s.regs inst.x)) ∧
    (∀ key s, s.keys.length = 16 → ((Chip8.press key s).isSome ↔ key < 16)) := by
  refine ⟨?_, ?_, ?_⟩
  · intro inst s hlen
    unfold Chip8.skp
    cases h : s.keys.get? (s.regs inst.x) with
    | none =>
        have hge : s.keys.length ≤ s.regs inst.x := List.get?_eq_none.mp h
        simp only []
        constructor
        · intro _; omega
        · intro _; trivial
    | some k =>
        have hlt : s.regs inst.x < s.keys.length := by
          by_contra hc
          rw [List.get?_eq_none.mpr (by omega)] at h
          exact Option.noConfusion h
        simp only []
        constructor
        · intro hcontra
          exact absurd hcontra (by simp)
        · intro hge; omega
  · intro inst s hlen
    unfold Chip8.sknp
    cases h : s.keys.get? (s.regs inst.x) with
    | none =>
        have hge : s.keys.length ≤ s.regs inst.x := List.get?_eq_none.mp h
        constructor
        · intro _; omega
        · intro _; rfl
    | some k =>
        have hlt : s.regs inst.x < s.keys.length := by
          by_contra hc
          rw [List.get?_eq_none.mpr (by omega)] at h
          exact Option.noConfusion h
        constructor
        · intro hcontra
          exact absurd hcontra (by simp)
        · intro hge; omega
  · intro key s hlen
    unfold Chip8.press
    by_cases h : key < s.keys.length
    · rw [if_pos h]
      simp only [Option.isSome_some]
      constructor
      · intro _; omega
      · intro _; trivial
    · rw [if_neg h]
      simp only [Option.isSome_none]
      constructor
      · intro hc; exact Bool.noConfusion hc
      · intro hlt; omega

/-- Witness for C10: on the fresh VM (16 keys, V0 = 0) the skip access is
in bounds, and press 3 succeeds. -/
theorem chip8_C10_witness :
    ((Chip8.skp wInstSKP Chip8.new = .error (.keyIndexOutOfRange (Chip8.new.regs wInstSKP.x))
        ↔ 16 ≤ Chip8.new.regs wInstSKP.x)) ∧
    ((Chip8.press 3 Chip8.new).isSome ↔ 3 < 16) :=
  ⟨chip8_C10.1 wInstSKP Chip8.new (by decide),
   chip8_C10.2.2 3 Chip8.new (by decide)⟩

/-- The LD Vx, K keypad scan leaves the accumulator untouched when no
scanned key is pressed. -/
theorem vkScan_nopress (keys : List Nat) (x m : Nat) (acc : (Nat → Nat) × Bool)
    (h : ∀ i, i < m → keys.getD i 0 ≠ 1) :
    (List.range m).foldl
      (fun acc i => if keys.getD i 0 = 1 then (Function.update acc.1 x i, true) else acc)
      acc = acc := by
  induction m with
  | zero => simp
  | succ n ih =>
      rw [List.range_succ, List.foldl_append, List.foldl_cons, List.foldl_nil]
      rw [ih (fun i hi => h i (by omega))]
      rw [if_neg (h n (by omega))]

/-- The LD Vx, K keypad scan ends with the highest pressed index in Vx and
the pressed flag raised. -/
theorem vkScan_highest (keys : List Nat) (x m i0 : Nat) (acc : (Nat → Nat) × Bool)
    (hi : i0 < m) (hp : keys.getD i0 0 = 1)
    (hhigh : ∀ j, i0 < j → j < m → keys.getD j 0 ≠ 1) :
    ((List.range m).foldl
      (fun acc i => if keys.getD i 0 = 1 then (Function.update acc.1 x i, true) else acc)
      acc).1 x = i0 ∧
    ((List.range m).foldl
      (fun acc i => if keys.getD i 0 = 1 then (Function.update acc.1 x i, true) else acc)
      acc).2 = true := by
  induction m with
  | zero => omega
  | succ n ih =>
      rw [List.range_succ, List.foldl_append, List.foldl_cons, List.foldl_nil]
      by_cases h1 : i0 = n
      · subst h1
        rw [if_pos hp]
        exact ⟨Function.update_same _ _ _, rfl⟩
      · have h2 : i0 < n := by omega
        rw [if_neg (hhigh n (by omega) (by omega))]
        exact ih h2 (fun j hj1 hj2 => hhigh j hj1 (by omega))

/-- After a successful dispatch the timers hold their pre-step values,
except for the timer the opcode itself wrote. -/
theorem execute_timers (inst : Instruction) (rnd : Nat) (s t : Chip8) (b : Bool)
    (h : Chip8.execute inst rnd s = .ok (t, b)) :
    t.dt = (if inst.op = Opcodes.LD_DTV then s.regs inst.x else s.dt) ∧
    t.st = (if inst.op = Opcodes.LD_STV then s.regs inst.x else s.st) := by
  cases hc : inst.op <;>
    simp only [Chip8.execute, hc, Except.ok.injEq, Prod.mk.injEq] at h <;>
    try (obtain ⟨ht, hb⟩ := h; subst ht; constructor <;>
      first
        | rfl
        | (simp only [Chip8.se_vb, Chip8.se_vv, Chip8.sne_vb, Chip8.sne_vv,
            Chip8.ld_vk]
           split <;> rfl))
  case RET =>
    cases hs : s.stack with
    | nil =>
        simp only [Chip8.ret, hs] at h
        exact Except.noConfusion h
    | cons a rest =>
        simp only [Chip8.ret, hs, Except.ok.injEq, Prod.mk.injEq] at h
        obtain ⟨ht, hb⟩ := h
        subst ht
        exact ⟨rfl, rfl⟩
  case SKP =>
    cases hk : s.keys.get? (s.regs inst.x) with
    | none =>
        simp only [Chip8.skp, hk] at h
        exact Except.noConfusion h
    | some k =>
        simp only [Chip8.skp, hk, Except.ok.injEq, Prod.mk.injEq] at h
        obtain ⟨ht, hb⟩ := h
        subst ht
        constructor <;> (split <;> rfl)
  case SKNP =>
    cases hk : s.keys.get? (s.regs inst.x) with
    | none =>
        simp only [Chip8.sknp, hk] at h
        exact Except.noConfusion h
    | some k =>
        simp only [Chip8.sknp, hk, Except.ok.injEq, Prod.mk.injEq] at h
        obtain ⟨ht, hb⟩ := h
        subst ht
        constructor <;> (split <;> rfl)

theorem advance_dt (b : Bool) (s : Chip8) : (Chip8.advance b s).dt = s.dt := by
  unfold Chip8.advance
  split <;> rfl

theorem advance_st (b : Bool) (s : Chip8) : (Chip8.advance b s).st = s.st := by
  unfold Chip8.advance
  split <;> rfl

theorem advance_stack (b : Bool) (s : Chip8) : (Chip8.advance b s).stack = s.stack := by
  unfold Chip8.advance
  split <;> rfl

theorem advance_keys (b : Bool) (s : Chip8) : (Chip8.advance b s).keys = s.keys := by
  unfold Chip8.advance
  split <;> rfl

theorem advance_regs (b : Bool) (s : Chip8) : (Chip8.advance b s).regs = s.regs := by
  unfold Chip8.advance
  split <;> rfl

theorem advance_mem (b : Bool) (s : Chip8) : (Chip8.advance b s).mem = s.mem := by
  unfold Chip8.advance
  split <;> rfl

theorem advance_pc_true (s : Chip8) : (Chip8.advance true s).pc = s.pc := rfl

theorem advance_pc_false (s : Chip8) : (Chip8.advance false s).pc = s.pc + 2 := rfl

theorem tick_dt (s : Chip8) : (Chip8.tick s).dt = s.dt - 1 := by
  show (if 0 < s.dt then s.dt - 1 else s.dt) = s.dt - 1
  split <;> omega

theorem tick_st (s : Chip8) : (Chip8.tick s).st = s.st - 1 := by
  show (if 0 < s.st then s.st - 1 else s.st) = s.st - 1
  split <;> omega

theorem tick_pc (s : Chip8) : (Chip8.tick s).pc = s.pc := rfl

theorem tick_stack (s : Chip8) : (Chip8.tick s).stack = s.stack := rfl

theorem tick_keys (s : Chip8) : (Chip8.tick s).keys = s.keys := rfl

theorem tick_regs (s : Chip8) : (Chip8.tick s).regs = s.regs := rfl

theorem tick_mem (s : Chip8) : (Chip8.tick s).mem = s.mem := rfl

/-- Reduction of `Chip8.run` on a recognized opcode whose dispatch
succeeds. -/
theorem run_some (dec : Nat → Option Instruction) (rnd : Nat) (s t : Chip8)
    (b : Bool) (inst : Instruction) (hdec : dec s.fetch = some inst)
    (hex : Chip8.execute inst rnd s = .ok (t, b)) :
    Chip8.run dec rnd s = .ok (Chip8.tick (Chip8.advance b t)) := by
  unfold Chip8.run
  rw [hdec]
  show Chip8.runInst inst rnd s = _
  unfold Chip8.runInst
  rw [hex]

/-- Reduction of `Chip8.run` when the raw opcode is unrecognized. -/
theorem run_none (dec : Nat → Option Instruction) (rnd : Nat) (s : Chip8)
    (hdec : dec s.fetch = none) :
    Chip8.run dec rnd s = .error (.unrecognizedOpcode s.fetch) := by
  unfold Chip8.run
  rw [hdec]

/-- Reduction of `Chip8.run` when the dispatch fails. -/
theorem run_execute_error (dec : Nat → Option Instruction) (rnd : Nat) (s : Chip8)
    (inst : Instruction) (e : Chip8Error) (hdec : dec s.fetch = some inst)
    (hex : Chip8.execute inst rnd s = .error e) :
    Chip8.run dec rnd s = .error e := by
  unfold Chip8.run
  rw [hdec]
  show Chip8.runInst inst rnd s = _
  unfold Chip8.runInst
  rw [hex]

/-- A successful step is a successful dispatch followed by advance and
tick. -/
theorem run_ok_inv (dec : Nat → Option Instruction) (rnd : Nat) (s s' : Chip8)
    (inst : Instruction) (hdec : dec s.fetch = some inst)
    (hrun : Chip8.run dec rnd s = .ok s') :
    ∃ t b, Chip8.execute inst rnd s = .ok (t, b)
      ∧ s' = Chip8.tick (Chip8.advance b t) := by
  cases hex : Chip8.execute inst rnd s with
  | error e =>
      rw [run_execute_error dec rnd s inst e hdec hex] at hrun
      exact Except.noConfusion hrun
  | ok tb =>
      obtain ⟨t, b⟩ := tb
      rw [run_some dec rnd s t b inst hdec hex] at hrun
      exact ⟨t, b, rfl, (Except.ok.injEq _ _ ▸ hrun).symm⟩

/-- One successful step of any opcode that does not write DT decrements DT
by 1, floored at 0. -/
theorem run_dt_preserve (dec : Nat → Option Instruction) (rnd : Nat) (s s' : Chip8)
    (inst : Instruction) (hdec : dec s.fetch = some inst)
    (hop : inst.op ≠ Opcodes.LD_DTV)
    (hrun : Chip8.run dec rnd s = .ok s') : s'.dt = s.dt - 1 := by
  obtain ⟨t, b, hex, hs'⟩ := run_ok_inv dec rnd s s' inst hdec hrun
  have hdt := (execute_timers inst rnd s t b hex).1
  rw [if_neg hop] at hdt
  subst hs'
  rw [tick_dt, advance_dt, hdt]

/-- One successful step of any opcode that does not write ST decrements ST
by 1, floored at 0. -/
theorem run_st_preserve (dec : Nat → Option Instruction) (rnd : Nat) (s s' : Chip8)
    (inst : Instruction) (hdec : dec s.fetch = some inst)
    (hop : inst.op ≠ Opcodes.LD_STV)
    (hrun : Chip8.run dec rnd s = .ok s') : s'.st = s.st - 1 := by
  obtain ⟨t, b, hex, hs'⟩ := run_ok_inv dec rnd s s' inst hdec hrun
  have hst := (execute_timers inst rnd s t b hex).2
  rw [if_neg hop] at hst
  subst hs'
  rw [tick_st, advance_st, hst]

/-- A step whose opcode writes DT := Vx ends the step with DT = Vx - 1
(the decay runs after the opcode). -/
theorem run_dt_write (dec : Nat → Option Instruction) (rnd : Nat) (s s' : Chip8)
    (inst : Instruction) (hdec : dec s.fetch = some inst)
    (hop : inst.op = Opcodes.LD_DTV)
    (hrun : Chip8.run dec rnd s = .ok s') : s'.dt = s.regs inst.x - 1 := by
  obtain ⟨t, b, hex, hs'⟩ := run_ok_inv dec rnd s s' inst hdec hrun
  have hdt := (execute_timers inst rnd s t b hex).1
  rw [if_pos hop] at hdt
  subst hs'
  rw [tick_dt, advance_dt, hdt]

/-- The LD Vx, K handler with no key pressed only rewinds PC by 2. -/
theorem ld_vk_nokey (inst : Instruction) (s : Chip8)
    (hkeys : ∀ i, i < s.keys.length → s.keys.getD i 0 ≠ 1) :
    Chip8.ld_vk inst s = { s with pc := s.pc - 2 } := by
  simp only [Chip8.ld_vk]
  rw [vkScan_nopress s.keys inst.x s.keys.length (s.regs, false) hkeys]
  rfl

/-- A blocked LD Vx, K step: with no key pressed the handler rewinds PC by
2 and the default advance restores it; registers, keypad and memory are
untouched (only the timers decay). -/
theorem run_ldvk_nokey (dec : Nat → Option Instruction) (rnd : Nat) (s s' : Chip8)
    (inst : Instruction) (hdec : dec s.fetch = some inst)
    (hop : inst.op = Opcodes.LD_VK) (hpc : 2 ≤ s.pc)
    (hkeys : ∀ i, i < s.keys.length → s.keys.getD i 0 ≠ 1)
    (hrun : Chip8.run dec rnd s = .ok s') :
    s'.pc = s.pc ∧ s'.keys = s.keys ∧ s'.regs = s.regs ∧ s'.mem = s.mem := by
  obtain ⟨t, b, hex, hs'⟩ := run_ok_inv dec rnd s s' inst hdec hrun
  simp only [Chip8.execute, hop, Except.ok.injEq, Prod.mk.injEq] at hex
  obtain ⟨ht, hb⟩ := hex
  subst hs'
  subst hb
  rw [ld_vk_nokey inst s hkeys] at ht
  subst ht
  refine ⟨?_, ?_, ?_, ?_⟩
  · rw [tick_pc, advance_pc_false]
    show s.pc - 2 + 2 = s.pc
    omega
  · rw [tick_keys, advance_keys]
  · rw [tick_regs, advance_regs]
  · rw [tick_mem, advance_mem]

/-- Iterating a program of blocked LD Vx, K steps never moves PC. -/
theorem runIter_ldvk_nokey (dec : Nat → Option Instruction) (rnd : Nat)
    (hdecAll : ∀ t : Chip8, ∀ i : Instruction, dec t.fetch = some i → i.op = Opcodes.LD_VK) :
    ∀ k s s', 2 ≤ s.pc → (∀ i, i < s.keys.length → s.keys.getD i 0 ≠ 1) →
      Chip8.runIter dec rnd k s = .ok s' → s'.pc = s.pc := by
  intro k
  induction k with
  | zero =>
      intro s s' _ _ hrun
      simp only [Chip8.runIter] at hrun
      injection hrun with h
      rw [← h]
  | succ k ih =>
      intro s s' hpc hkeys hrun
      simp only [Chip8.runIter] at hrun
      cases hd : dec s.fetch with
      | none =>
          rw [run_none dec rnd s hd] at hrun
          exact Except.noConfusion hrun
      | some inst =>
          cases hr : Chip8.run dec rnd s with
          | error e =>
              rw [hr] at hrun
              exact Except.noConfusion hrun
          | ok s1 =>
              rw [hr] at hrun
              obtain ⟨hpc1, hkeys1, _, hmem1⟩ :=
                run_ldvk_nokey dec rnd s s1 inst hd (hdecAll s inst hd) hpc hkeys hr
              have hstep := ih s1 s' (by rw [hpc1]; exact hpc)
                (by rw [hkeys1]; exact hkeys) hrun
              rw [hstep, hpc1]

/-- Per-step DT decay over an iterated run of non-DT-writing opcodes. -/
theorem runIter_dt (dec : Nat → Option Instruction) (rnd : Nat)
    (hdecAll : ∀ t : Chip8, ∀ i : Instruction, dec t.fetch = some i → i.op ≠ Opcodes.LD_DTV) :
    ∀ k s s', Chip8.runIter dec rnd k s = .ok s' → s'.dt = s.dt - k := by
  intro k
  induction k with
  | zero =>
      intro s s' hrun
      simp only [Chip8.runIter] at hrun
      injection hrun with h
      rw [← h]
      omega
  | succ k ih =>
      intro s s' hrun
      simp only [Chip8.runIter] at hrun
      cases hd : dec s.fetch with
      | none =>
          rw [run_none dec rnd s hd] at hrun
          exact Except.noConfusion hrun
      | some inst =>
          cases hr : Chip8.run dec rnd s with
          | error e =>
              rw [hr] at hrun
              exact Except.noConfusion hrun
          | ok s1 =>
              rw [hr] at hrun
              have h1 := run_dt_preserve dec rnd s s1 inst hd (hdecAll s inst hd) hr
              have h2 := ih s1 s' hrun
              rw [h2, h1]
              omega

/-- Counterexample to C1 as stated: a CALL step at A = 0x200 leaves 0x200
itself on the stack top, not A+2 = 0x202; and a RET step that pops 0x200
completes with PC = 0x202, not the popped value. -/
theorem chip8_C1_counterexample :
    Except.map Chip8.stack (Chip8.run wDecCALL 0 Chip8.new) = .ok [0x200] ∧
    (0x200 : Nat) ≠ 0x200 + 2 ∧
    Except.map Chip8.pc (Chip8.run wDecRET 0 wRetState) = .ok 0x202 ∧
    (0x202 : Nat) ≠ 0x200 := by
  refine ⟨?_, by decide, ?_, by decide⟩
  · rfl
  · rfl

/-- Claim C1 (amended): CALL at address A pushes A itself (the address of
the CALL instruction, not A+2) onto the stack top and sets PC to the
target; RET pops that address into PC and, because it does not raise the
jmp flag, the step auto-advance then adds 2 - so the round trip completes
with PC = A + 2, reached as popped value plus 2 rather than as the popped
value exactly. -/
theorem chip8_C1 :
    (∀ dec rnd s s' inst, dec s.fetch = some inst → inst.op = Opcodes.CALL →
      Chip8.run dec rnd s = .ok s' → s'.stack = s.pc :: s.stack ∧ s'.pc = inst.nnn) ∧
    (∀ dec rnd s s' inst a rest, dec s.fetch = some inst → inst.op = Opcodes.RET →
      s.stack = a :: rest → Chip8.run dec rnd s = .ok s' →
      s'.pc = a % 65536 + 2 ∧ s'.stack = rest) ∧
    (∀ dec rnd s s1 s2 i1 i2, dec s.fetch = some i1 → i1.op = Opcodes.CALL →
      dec s1.fetch = some i2 → i2.op = Opcodes.RET → s.pc < 65536 →
      Chip8.run dec rnd s = .ok s1 → Chip8.run dec rnd s1 = .ok s2 →
      s2.pc = s.pc + 2 ∧ s2.stack = s.stack) := by
  have hcall : ∀ dec rnd s s' inst, dec s.fetch = some inst → inst.op = Opcodes.CALL →
      Chip8.run dec rnd s = .ok s' → s'.stack = s.pc :: s.stack ∧ s'.pc = inst.nnn := by
    intro dec rnd s s' inst hdec hop hrun
    obtain ⟨t, b, hex, hs'⟩ := run_ok_inv dec rnd s s' inst hdec hrun
    simp only [Chip8.execute, hop, Except.ok.injEq, Prod.mk.injEq] at hex
    obtain ⟨ht, hb⟩ := hex
    subst hs'
    subst ht
    subst hb
    constructor
    · rw [tick_stack, advance_stack]
      rfl
    · rw [tick_pc, advance_pc_true]
      rfl
  have hret : ∀ dec rnd s s' inst a rest, dec s.fetch = some inst →
      inst.op = Opcodes.RET → s.stack = a :: rest →
      Chip8.run dec rnd s = .ok s' → s'.pc = a % 65536 + 2 ∧ s'.stack = rest := by
    intro dec rnd s s' inst a rest hdec hop hstack hrun
    obtain ⟨t, b, hex, hs'⟩ := run_ok_inv dec rnd s s' inst hdec hrun
    simp only [Chip8.execute, hop, Chip8.ret, hstack, Except.ok.injEq,
      Prod.mk.injEq] at hex
    obtain ⟨ht, hb⟩ := hex
    subst hs'
    subst ht
    subst hb
    constructor
    · rw [tick_pc, advance_pc_false]
    · rw [tick_stack, advance_stack]
  refine ⟨hcall, hret, ?_⟩
  intro dec rnd s s1 s2 i1 i2 hd1 ho1 hd2 ho2 hpc hr1 hr2
  obtain ⟨hst1, _⟩ := hcall dec rnd s s1 i1 hd1 ho1 hr1
  obtain ⟨hpc2, hst2⟩ := hret dec rnd s1 s2 i2 s.pc s.stack hd2 ho2 hst1 hr2
  exact ⟨by rw [hpc2, Nat.mod_eq_of_lt hpc], hst2⟩

/-- Witness for C1: the concrete CALL step pushes 0x200 and jumps to
0x400; the concrete RET step then resumes at 0x202 with the stack
restored. -/
theorem chip8_C1_witness :
    (wRtCall.stack = wRtState.pc :: wRtState.stack ∧ wRtCall.pc = wInstCALL.nnn) ∧
    (wRtRet.pc = wRtState.pc + 2 ∧ wRtRet.stack = wRtState.stack) :=
  ⟨chip8_C1.1 wDecRT 0 wRtState wRtCall wInstCALL rfl rfl rfl,
   chip8_C1.2.2 wDecRT 0 wRtState wRtCall wRtRet wInstCALL wInstRET
     rfl rfl rfl rfl (by decide) rfl rfl⟩

/-- Claim C6: LD Vx, K scans keypad indices 0..15 in order and writes every
pressed index into Vx, so the highest pressed index wins; with no key
pressed the PC is rewound by 2, the default advance restores it, and PC
does not progress past the instruction across repeated steps while the
keypad stays unpressed. -/
theorem chip8_C6 :
    (∀ inst s i0, s.keys.length = 16 → i0 < 16 → s.keys.getD i0 0 = 1 →
      (∀ j, j < 16 → i0 < j → s.keys.getD j 0 ≠ 1) →
      (Chip8.ld_vk inst s).regs inst.x = i0) ∧
    (∀ dec rnd s s' inst, dec s.fetch = some inst → inst.op = Opcodes.LD_VK →
      2 ≤ s.pc → (∀ i, i < s.keys.length → s.keys.getD i 0 ≠ 1) →
      Chip8.run dec rnd s = .ok s' →
      s'.pc = s.pc ∧ s'.keys = s.keys ∧ s'.regs = s.regs ∧ s'.mem = s.mem) ∧
    (∀ dec rnd k s s',
      (∀ t : Chip8, ∀ i : Instruction, dec t.fetch = some i → i.op = Opcodes.LD_VK) →
      2 ≤ s.pc → (∀ i, i < s.keys.length → s.keys.getD i 0 ≠ 1) →
      Chip8.runIter dec rnd k s = .ok s' → s'.pc = s.pc) := by
  refine ⟨?_, ?_, ?_⟩
  · intro inst s i0 hlen hi0 hp hhigh
    simp only [Chip8.ld_vk]
    rw [hlen]
    obtain ⟨h1, h2⟩ := vkScan_highest s.keys inst.x 16 i0 (s.regs, false) hi0 hp
      (fun j hj1 hj2 => hhigh j hj2 hj1)
    rw [h2, if_neg (by decide)]
    exact h1
  · intro dec rnd s s' inst hdec hop hpc hkeys hrun
    exact run_ldvk_nokey dec rnd s s' inst hdec hop hpc hkeys hrun
  · intro dec rnd k s s' hdecAll hpc hkeys hrun
    exact runIter_ldvk_nokey dec rnd hdecAll k s s' hpc hkeys hrun

/-- Witness for C6: with keys 2 and 5 pressed the scan ends with Vx = 5;
with no key pressed three iterated steps leave PC at 0x200. -/
theorem chip8_C6_witness :
    (Chip8.ld_vk wInstLDVK wVkState).regs wInstLDVK.x = 5 ∧
    wVkIter3.pc = Chip8.new.pc :=
  ⟨chip8_C6.1 wInstLDVK wVkState 5 (by decide) (by decide) (by decide) (by decide),
   chip8_C6.2.2 wDecVK 0 3 Chip8.new wVkIter3
     (fun t i h => by
       simp only [wDecVK] at h
       injection h with h2
       rw [← h2]
       rfl)
     (by decide) (by decide) rfl⟩

/-- Claim C7: on every successful step the timers decay by exactly 1
(floored at 0) after the opcode handler has run, regardless of which
opcode ran (unless that opcode itself wrote the timer); a step that sets
DT := Vx ends with DT = Vx - 1; and k steps of non-DT-writing opcodes
take DT from d to d - k (never below 0). -/
theorem chip8_C7 :
    (∀ dec rnd s s' inst, dec s.fetch = some inst → inst.op ≠ Opcodes.LD_DTV →
      Chip8.run dec rnd s = .ok s' → s'.dt = s.dt - 1) ∧
    (∀ dec rnd s s' inst, dec s.fetch = some inst → inst.op ≠ Opcodes.LD_STV →
      Chip8.run dec rnd s = .ok s' → s'.st = s.st - 1) ∧
    (∀ dec rnd s s' inst, dec s.fetch = some inst → inst.op = Opcodes.LD_DTV →
      Chip8.run dec rnd s = .ok s' → s'.dt = s.regs inst.x - 1) ∧
    (∀ dec rnd k s s',
      (∀ t : Chip8, ∀ i : Instruction, dec t.fetch = some i → i.op ≠ Opcodes.LD_DTV) →
      Chip8.runIter dec rnd k s = .ok s' → s'.dt = s.dt - k) :=
  ⟨fun dec rnd s s' inst hdec hop hrun =>
      run_dt_preserve dec rnd s s' inst hdec hop hrun,
   fun dec rnd s s' inst hdec hop hrun =>
      run_st_preserve dec rnd s s' inst hdec hop hrun,
   fun dec rnd s s' inst hdec hop hrun =>
      run_dt_write dec rnd s s' inst hdec hop hrun,
   fun dec rnd k s s' hdecAll hrun =>
      runIter_dt dec rnd hdecAll k s s' hrun⟩

/-- Witness for C7: from DT = 5, five LD V0, 7 steps end with DT = 0, a
sixth leaves DT = 0, and the LD DT, V3 step with V3 = 5 ends with DT = 4. -/
theorem chip8_C7_witness :
    wDtState.dt = 5 ∧
    wDt5.dt = wDtState.dt - 5 ∧
    wDt6.dt = wDtState.dt - 6 ∧
    wDtvRes.dt = wDtvState.regs wInstLDDTV.x - 1 :=
  ⟨rfl,
   chip8_C7.2.2.2 wDecLDVB 0 5 wDtState wDt5
     (fun t i h => by
       simp only [wDecLDVB] at h
       injection h with h2
       rw [← h2]
       decide) rfl,
   chip8_C7.2.2.2 wDecLDVB 0 6 wDtState wDt6
     (fun t i h => by
       simp only [wDecLDVB] at h
       injection h with h2
       rw [← h2]
       decide) rfl,
   chip8_C7.2.2.1 wDecLDDTV 0 wDtvState wDtvRes wInstLDDTV rfl rfl rfl⟩

/-- Counterexample to C9 as stated: two states diverging only in PC yield
byte-for-byte identical unrecognized-opcode reports (the report carries
the raw opcode but not the PC), and in the source both fatal conditions
abort via panic rather than being returned from `run`. -/
theorem chip8_C9_counterexample :
    Chip8.run wDecNone 0 wC9s1 = Chip8.run wDecNone 0 wC9s2 ∧
    wC9s1.pc ≠ wC9s2.pc := by
  refine ⟨?_, by decide⟩
  rfl

/-- Claim C9 (amended): every core-internal fatal condition is surfaced as
a distinguishable fatal outcome - in the source a panic that ends
execution, modelled as an explicit error result of the step; the
unrecognized-opcode report carries the raw opcode value (but not the PC),
the empty-stack RET yields a distinct stack-underflow error, and a failed
step returns no successor state, so no mutated VM state is observable. -/
theorem chip8_C9 :
    (∀ dec rnd s, dec s.fetch = none →
      Chip8.run dec rnd s = .error (.unrecognizedOpcode s.fetch)) ∧
    (∀ dec rnd s inst, dec s.fetch = some inst → inst.op = Opcodes.RET →
      s.stack = [] → Chip8.run dec rnd s = .error .stackUnderflow) ∧
    (∀ raw, Chip8Error.unrecognizedOpcode raw ≠ Chip8Error.stackUnderflow) := by
  refine ⟨?_, ?_, ?_⟩
  · intro dec rnd s hdec
    exact run_none dec rnd s hdec
  · intro dec rnd s inst hdec hop hstack
    refine run_execute_error dec rnd s inst _ hdec ?_
    simp only [Chip8.execute, hop, Chip8.ret, hstack]
  · intro raw h
    exact Chip8Error.noConfusion h

/-- Witness for C9: the concrete unrecognized fetch errors out with the
raw opcode 0x5151, and RET on the fresh VM (empty stack) errors out with
the distinct stack-underflow report. -/
theorem chip8_C9_witness :
    Chip8.run wDecNone 0 wC9s1 = .error (.unrecognizedOpcode wC9s1.fetch) ∧
    Chip8.run wDecRET 0 Chip8.new = .error .stackUnderflow ∧
    Chip8Error.unrecognizedOpcode 0x5151 ≠ Chip8Error.stackUnderflow :=
  ⟨chip8_C9.1 wDecNone 0 wC9s1 rfl,
   chip8_C9.2.1 wDecRET 0 Chip8.new wInstRET rfl rfl rfl,
   chip8_C9.2.2 0x5151⟩
